import Mathlib

/-!
# Verification of the image triage and aggregation pipeline

Shallow embedding of the Lambda image-analysis pipeline (`src/index.ts` and
the worker it drives).  JavaScript numbers are modelled as exact rationals
(`ℚ`); `Math.round` and `Number.prototype.toFixed(1)` (followed by unary `+`)
are modelled for the non-negative values that occur in this program.
Stateful, concurrency-driven parts of the handler are modelled by explicit
sequential passes over the per-image outcomes: the request-level counters and
all list-valued state depend only on which per-image stage outcomes occurred,
not on the interleaving, except for the order in which surviving records are
accumulated, which this model takes to be the submission (input) order.
The nondeterministic response fields `confidence` (a fresh random number) and
`generated_at` (the clock) are outside the model; no claim concerns them.
-/

/-- A label returned by the external detection service: both fields are
optional, exactly as `@aws-sdk/client-rekognition` declares them
(`L.Name`, `L.Confidence`). -/
structure Label where
  Name : Option String
  Confidence : Option ℚ
deriving DecidableEq, Repr

/-- `String.prototype.toLowerCase()` for the ASCII label names this program
feeds it: lowercase every character. -/
def jsToLower (s : String) : String := ⟨s.data.map Char.toLower⟩

/-- `String.prototype.includes(pat)` on char lists: `pat` occurs as a
contiguous substring of `hay`. -/
def hasSubstr (pat : List Char) : List Char → Bool
  | [] => pat.isEmpty
  | c :: rest => pat.isPrefixOf (c :: rest) || hasSubstr pat rest

/-- `Math.round` for the non-negative rationals this program feeds it:
round half toward positive infinity. -/
def jsRound (x : ℚ) : ℤ := ⌊x + 1/2⌋

/-- `+(x.toFixed(1))` for the non-negative rationals this program feeds it:
round to one decimal place, ties toward the larger value. -/
def toFixed1 (x : ℚ) : ℚ := (jsRound (x * 10) : ℚ) / 10

/-- The fixed damage-keyword list of `classifyDamage`. -/
def damageKeywords : List String :=
  ["damage", "shingle uplift", "material detachment",
   "wind damage", "hail damage", "roof damage"]

/-- The mutable locals of `classifyDamage`'s label loop. -/
structure ClassifyState where
  blurry : Bool
  dark : Bool
  area : Option String
  damageLabels : List Label

/-- One iteration of the `for (const L of labels)` loop in `classifyDamage`:
lowercase the name (`(L.Name || '').toLowerCase()`), default the confidence
(`L.Confidence || 0`), skip the label entirely below confidence 50, then run
the independent membership tests in program order (so a later area assignment
overwrites an earlier one) and collect damage-keyword substring matches. -/
def classifyStep (s : ClassifyState) (L : Label) : ClassifyState :=
  let name := jsToLower (L.Name.getD "")
  let confidence := L.Confidence.getD 0
  if confidence < 50 then s
  else
    { blurry := if name == "blur" || name == "blurry" then true else s.blurry
      dark := if name == "dark" || name == "shadow" then true else s.dark
      area :=
        let a1 := if name == "roof" || name == "shingle" then some "roof" else s.area
        let a2 := if name == "garage" || name == "door" then some "garage" else a1
        if name == "wall" || name == "siding" || name == "panel" then some "siding" else a2
      damageLabels :=
        s.damageLabels ++
          (if damageKeywords.any (fun kw => hasSubstr kw.data name.data)
           then [L] else []) }

/-- Initial state of `classifyDamage`'s locals. -/
def initClassifyState : ClassifyState := ⟨false, false, none, []⟩

/-- The loop of `classifyDamage` over the whole label list. -/
def classifyFold (labels : List Label) : ClassifyState :=
  labels.foldl classifyStep initClassifyState

/-- Result of `classifyDamage`: either `{discard: true}` or the kept triple. -/
inductive ClassifyOutcome where
  | discard
  | keep (area : String) (severity : ℤ) (qualityScore : ℚ)
deriving DecidableEq, Repr

/-- `classifyDamage` from `src/index.ts`: run the label loop; discard when no
area was inferred and no damage label collected; otherwise severity is
`Math.min(4, Math.round(avgConfidence / 25))` with
`avgConfidence = Σ (l.Confidence || 0) / (damageLabels.length || 1)`, and
quality is `0.6` when blurry or dark, else `1`. -/
def classifyDamage (labels : List Label) : ClassifyOutcome :=
  let s := classifyFold labels
  if s.area = none ∧ s.damageLabels = [] then .discard
  else
    let avgConfidence : ℚ :=
      (s.damageLabels.foldl (fun sum l => sum + l.Confidence.getD 0) 0) /
        (if s.damageLabels.length = 0 then 1 else (s.damageLabels.length : ℚ))
    let severity := min 4 (jsRound (avgConfidence / 25))
    let qualityScore : ℚ := if s.blurry || s.dark then 6/10 else 1
    .keep (s.area.getD "unknown") severity qualityScore

/-- The record pushed onto `photoData` for each surviving image. -/
structure ImageAnalysisResult where
  url : String
  area : String
  severity : ℤ
  quality : ℚ
  hash : String
deriving DecidableEq, Repr

/-- `hammingDistance` from `groupByHash`: iterate over the positions of the
first string and count positions where the characters differ (`a[i] !== b[i]`;
a position past the end of `b` reads as `undefined` and therefore differs). -/
def hammingDistance (a b : String) : Nat :=
  (List.range a.toList.length).countP
    (fun i => decide (a.toList[i]? ≠ b.toList[i]?))

/-- `groupByHash` from `src/index.ts`.  The imperative original keeps a
`visited` array: seed a cluster with the earliest unvisited record, sweep all
later unvisited records into it when their fingerprint is within Hamming
distance 3 *of the seed*, and repeat on what is left.  Since the sweep marks
exactly the close records visited and preserves relative order, this is the
recursion below: split the tail by closeness to the seed, emit the seed with
the close part, recurse on the far part. -/
def groupByHash : List ImageAnalysisResult → List (List ImageAnalysisResult)
  | [] => []
  | x :: rest =>
      (x :: rest.filter (fun y => hammingDistance x.hash y.hash ≤ 3)) ::
        groupByHash (rest.filter (fun y => ¬ hammingDistance x.hash y.hash ≤ 3))
termination_by l => l.length
decreasing_by
  simpa using Nat.lt_succ_of_le (List.length_filter_le _ _)

/-- Comparator of step 3 of the handler, as a `≤`-style Boolean relation:
`(a, b) => b.quality - a.quality` sorts by descending quality; JavaScript's
`Array.prototype.sort` is stable, which `List.mergeSort` also is. -/
def qle (a b : ImageAnalysisResult) : Bool := decide (b.quality ≤ a.quality)

/-- `g.sort((a, b) => b.quality - a.quality)[0]`: the first element of the
stable descending-quality sort of a cluster. -/
def bestImage (g : List ImageAnalysisResult) : Option ImageAnalysisResult :=
  (g.mergeSort qle).head?

/-- One element of the handler's `finalAreas` array. -/
structure AreaResult where
  area : String
  damage_confirmed : Bool
  avg_severity : ℚ
  primary_peril : String
  representative_images : List String
  notes : String
deriving DecidableEq, Repr

/-- The `source_images` object of the response body. -/
structure SourceImages where
  total : Nat
  analyzed : Nat
  discarded : Nat
  clusters : Nat
deriving DecidableEq, Repr

/-- The handler's return value (statusCode plus the JSON body fields the
model covers; `confidence` and `generated_at` are nondeterministic and
omitted, see the header comment). -/
structure Response where
  statusCode : Nat
  claim_id : String
  source_images : SourceImages
  overall_damage_severity : ℚ
  areas : List AreaResult
  data_gaps : List String
deriving DecidableEq, Repr

/-- The environment-determined outcome of the per-image external calls: did
`fetchWithRetry` resolve within its retries, what did the label-detection call
return (`none` models the call throwing), and what did the hash worker task
return (`none` models the task rejecting). -/
structure ImageOutcome where
  url : String
  fetchOk : Bool
  labels : Option (List Label)
  hash : Option String
deriving DecidableEq, Repr

/-- The per-image pipeline of handler steps 1 and 2: a failed fetch, a failed
label-detection call, a discard by `classifyDamage`, or a failed hash task
each end in `none` (that image's `discarded++` in the source); otherwise the
`ImageAnalysisResult` pushed onto `photoData`. -/
def processImage (o : ImageOutcome) : Option ImageAnalysisResult :=
  if !o.fetchOk then none
  else
    match o.labels with
    | none => none
    | some ls =>
      match classifyDamage ls with
      | .discard => none
      | .keep area sev q =>
        match o.hash with
        | none => none
        | some h => some ⟨o.url, area, sev, q, h⟩

/-- One entry of `finalAreas` (step 4 of the handler) for a given key of
`areaMap` and the representatives filed under it. -/
def mkAreaResult (loss_type area : String)
    (imgs : List ImageAnalysisResult) : AreaResult :=
  let totalWeight := imgs.foldl (fun sum i => sum + i.quality) 0
  let avgSeverity :=
    (imgs.foldl (fun sum i => sum + (i.severity : ℚ) * i.quality) 0) / totalWeight
  { area := area
    damage_confirmed := decide (2 ≤ (imgs.filter (fun i => decide (2 ≤ i.severity))).length)
    avg_severity := toFixed1 avgSeverity
    primary_peril := loss_type
    representative_images := (imgs.map (fun i => i.url)).take 3
    notes := if 5/2 < avgSeverity then "Shingle uplift or material detachment"
             else "Minor cosmetic or no visible damage" }

/-- Key order of the plain-object `areaMap`: JavaScript string keys enumerate
in insertion order, i.e. order of first occurrence over `bestImages`. -/
def areaKeys (imgs : List ImageAnalysisResult) : List String :=
  imgs.foldl (fun ks i => if ks.contains i.area then ks else ks ++ [i.area]) []

/-- The handler of `src/index.ts`, as a function of the request strings and
the per-image environment outcomes.  `photoData` is accumulated in submission
order (see the header comment); the counters count exactly the increments the
source performs: one `discarded++` per image whose pipeline ends early, one
`analyzed++` per pushed record. -/
def handler (claim_id loss_type : String) (outs : List ImageOutcome) : Response :=
  let photoData := outs.filterMap processImage
  let analyzed := photoData.length
  let discarded := outs.countP (fun o => (processImage o).isNone)
  let groups := groupByHash photoData
  let bestImages := groups.filterMap bestImage
  let finalAreas := (areaKeys bestImages).map
    (fun a => mkAreaResult loss_type a (bestImages.filter (fun i => i.area == a)))
  let overallSeverity : ℚ :=
    if bestImages.length = 0 then 0
    else toFixed1 ((bestImages.foldl (fun acc i => acc + (i.severity : ℚ) * i.quality) 0) /
      (bestImages.foldl (fun acc i => acc + i.quality) 0))
  { statusCode := 200
    claim_id := claim_id
    source_images :=
      { total := outs.length, analyzed := analyzed, discarded := discarded
        clusters := groups.length }
    overall_damage_severity := overallSeverity
    areas := finalAreas
    data_gaps := if analyzed < 3 then ["Very few usable images"] else [] }

/-! ## Spec-side definitions

These follow the wording of the specification, to be compared with the
definitions above that were translated from the source. -/

/-- Spec §4.3: a label passes the internal confidence floor (50) and is
damage evidence when its lowercased name contains one of the fixed damage
keywords. -/
def isDamageEvidence (L : Label) : Bool :=
  decide (50 ≤ L.Confidence.getD 0) &&
    damageKeywords.any (fun kw => hasSubstr kw.data (jsToLower (L.Name.getD "")).data)

/-- Spec §4.3: the area indicated by a single label, `none` when the label is
below the confidence floor or matches no indicator set. -/
def labelArea (L : Label) : Option String :=
  let name := jsToLower (L.Name.getD "")
  if L.Confidence.getD 0 < 50 then none
  else if name == "wall" || name == "siding" || name == "panel" then some "siding"
  else if name == "garage" || name == "door" then some "garage"
  else if name == "roof" || name == "shingle" then some "roof"
  else none

/-- Spec §4.3, last-match-wins: the area set by the last label (in list
order) that indicates one. -/
def lastArea : List Label → Option String
  | [] => none
  | L :: rest => (lastArea rest).or (labelArea L)

/-- Spec §4.3: severity is the average confidence across collected
damage-evidence labels (0 if none), divided by 25, rounded to nearest
integer, and clamped to `[0, 4]`. -/
def specSeverity (labels : List Label) : ℤ :=
  let evid := labels.filter isDamageEvidence
  let avg : ℚ :=
    if evid.isEmpty then 0
    else ((evid.map (fun L => L.Confidence.getD 0)).sum) / evid.length
  max 0 (min 4 (jsRound (avg / 25)))

/-- Spec §4.4/§4.5: the member with the highest quality score, ties keeping
the earliest in original order. -/
def firstMax : List ImageAnalysisResult → Option ImageAnalysisResult
  | [] => none
  | x :: xs =>
    match firstMax xs with
    | none => some x
    | some y => if y.quality > x.quality then some y else some x

/-- Spec §4.5: the quality-weighted mean of severity. -/
def specWeightedMean (imgs : List ImageAnalysisResult) : ℚ :=
  (imgs.map (fun i => (i.severity : ℚ) * i.quality)).sum /
    (imgs.map (fun i => i.quality)).sum

/-! ## Concrete sample data used by witnesses and counterexamples -/

/-- A fingerprint-only record: the fields other than `hash` are immaterial to
clustering. -/
def recOf (u h : String) : ImageAnalysisResult := ⟨u, "roof", 2, 1, h⟩

def recA : ImageAnalysisResult := recOf "a" "0000"
def recB : ImageAnalysisResult := recOf "b" "0011"
def recC : ImageAnalysisResult := recOf "c" "0110"
def recC' : ImageAnalysisResult := recOf "c" "1111"

/-- The spec's §8 aggregation example: severity 2 at quality 1. -/
def imgW1 : ImageAnalysisResult := ⟨"w1", "roof", 2, 1, "aaaa"⟩

/-- The spec's §8 aggregation example: severity 4 at quality 0.6. -/
def imgW2 : ImageAnalysisResult := ⟨"w2", "roof", 4, 6/10, "bbbb"⟩

/-- An image whose fetch exhausts all retries. -/
def badOut : ImageOutcome := ⟨"u0", false, none, none⟩

/-- An image that survives every stage. -/
def goodOut : ImageOutcome :=
  ⟨"u1", true, some [⟨some "roof", some 90⟩, ⟨some "hail damage", some 80⟩],
    some "cafe"⟩

/-- A label list with damage evidence but no area indicator. -/
def hailLabels : List Label := [⟨some "Hail Damage", some 90⟩]

/-! ## Helper lemmas -/

theorem jsRound_eq {x : ℚ} {z : ℤ} (h1 : (z : ℚ) ≤ x + 1/2)
    (h2 : x + 1/2 < (z : ℚ) + 1) : jsRound x = z := by
  rw [jsRound]
  exact Int.floor_eq_iff.mpr ⟨h1, by exact_mod_cast h2⟩

theorem jsRound_zero : jsRound 0 = 0 := by
  apply jsRound_eq <;> norm_num

theorem jsRound_nonneg {x : ℚ} (h : 0 ≤ x) : 0 ≤ jsRound x := by
  rw [jsRound]
  rw [Int.le_floor]
  push_cast
  linarith

theorem foldl_add_eq_sum {α : Type} (f : α → ℚ) (l : List α) (init : ℚ) :
    l.foldl (fun acc x => acc + f x) init = init + (l.map f).sum := by
  induction l generalizing init with
  | nil => simp
  | cons a t ih => simp [ih]; ring

theorem classifyStep_damageLabels (s : ClassifyState) (L : Label) :
    (classifyStep s L).damageLabels =
      s.damageLabels ++ (if isDamageEvidence L then [L] else []) := by
  by_cases h : L.Confidence.getD 0 < 50
  · simp [classifyStep, isDamageEvidence, h, not_le.mpr h]
  · simp [classifyStep, isDamageEvidence, h, not_lt.mp h]

theorem classifyStep_area (s : ClassifyState) (L : Label) :
    (classifyStep s L).area = (labelArea L).or s.area := by
  by_cases h : L.Confidence.getD 0 < 50
  · simp [classifyStep, labelArea, h]
  · cases hw : (jsToLower (L.Name.getD "") == "wall" ||
        jsToLower (L.Name.getD "") == "siding" ||
        jsToLower (L.Name.getD "") == "panel") <;>
    cases hg : (jsToLower (L.Name.getD "") == "garage" ||
        jsToLower (L.Name.getD "") == "door") <;>
    cases hr : (jsToLower (L.Name.getD "") == "roof" ||
        jsToLower (L.Name.getD "") == "shingle") <;>
    simp [classifyStep, labelArea, h, hw, hg, hr]

theorem foldl_classifyStep_damageLabels (labels : List Label) (s : ClassifyState) :
    (labels.foldl classifyStep s).damageLabels =
      s.damageLabels ++ labels.filter isDamageEvidence := by
  induction labels generalizing s with
  | nil => simp
  | cons L rest ih =>
    rw [List.foldl_cons, ih, List.filter_cons, classifyStep_damageLabels]
    cases h : isDamageEvidence L <;> simp [h]

theorem foldl_classifyStep_area (labels : List Label) (s : ClassifyState) :
    (labels.foldl classifyStep s).area = (lastArea labels).or s.area := by
  induction labels generalizing s with
  | nil => simp [lastArea]
  | cons L rest ih =>
    rw [List.foldl_cons, ih, lastArea, classifyStep_area, Option.or_assoc]

theorem classifyFold_damageLabels (labels : List Label) :
    (classifyFold labels).damageLabels = labels.filter isDamageEvidence := by
  rw [classifyFold, foldl_classifyStep_damageLabels]
  simp [initClassifyState]

theorem classifyFold_area (labels : List Label) :
    (classifyFold labels).area = lastArea labels := by
  rw [classifyFold, foldl_classifyStep_area]
  simp [initClassifyState, Option.or_none]

theorem lastArea_eq_none_iff (labels : List Label) :
    lastArea labels = none ↔ ∀ L ∈ labels, labelArea L = none := by
  induction labels with
  | nil => simp [lastArea]
  | cons L rest ih =>
    rw [lastArea]
    simp only [Option.or_eq_none, ih, List.mem_cons]
    constructor
    · rintro ⟨h1, h2⟩ M (rfl | hM)
      · exact h2
      · exact h1 M hM
    · intro h
      exact ⟨fun M hM => h M (Or.inr hM), h L (Or.inl rfl)⟩

/-! ## Claim theorems -/

theorem analyzed_add_discarded (outs : List ImageOutcome) :
    (outs.filterMap processImage).length +
      outs.countP (fun o => (processImage o).isNone) = outs.length := by
  induction outs with
  | nil => simp
  | cons o rest ih =>
    rw [List.filterMap_cons, List.countP_cons]
    cases h : processImage o <;> simp [h] <;> omega

/-- C1: for every request, the response's `source_images` counts satisfy
`analyzed + discarded = total`, and `total` is the length of the input
images array: every input image is counted exactly once, as analyzed or as
discarded. -/
theorem C1_counts_partition (claim_id loss_type : String) (outs : List ImageOutcome) :
    (handler claim_id loss_type outs).source_images.analyzed +
        (handler claim_id loss_type outs).source_images.discarded =
      (handler claim_id loss_type outs).source_images.total ∧
    (handler claim_id loss_type outs).source_images.total = outs.length := by
  refine ⟨?_, rfl⟩
  exact analyzed_add_discarded outs

/-- C2: the area assigned by classification is the one set by the last
confidence-passing area-indicator label, last-match-wins; in particular a
confidence-90 roof label followed by a confidence-60 siding label yields
area `siding`. -/
theorem C2_last_match_wins (labels : List Label) :
    (classifyFold labels).area = lastArea labels ∧
    classifyDamage [⟨some "Roof", some 90⟩, ⟨some "Siding", some 60⟩] =
      .keep "siding" 0 1 := by
  refine ⟨classifyFold_area labels, ?_⟩
  have h0 : jsRound (0 / 1 / 25) = 0 := by apply jsRound_eq <;> norm_num
  simp +decide [classifyDamage, classifyFold, initClassifyState, classifyStep,
    damageKeywords, jsToLower, hasSubstr, h0, jsRound_zero]

/-- C3: for every kept classification outcome, severity equals the average
confidence over the damage-evidence labels (0 if none), divided by 25,
rounded to nearest, clamped to `[0, 4]`. -/
theorem C3_severity_formula (labels : List Label) (a : String) (s : ℤ) (q : ℚ)
    (h : classifyDamage labels = .keep a s q) : s = specSeverity labels := by
  rw [classifyDamage] at h
  split at h
  · exact absurd h (by simp)
  · rw [ClassifyOutcome.keep.injEq] at h
    obtain ⟨-, hs, -⟩ := h
    rw [specSeverity]
    rw [classifyFold_damageLabels] at hs
    set evid := labels.filter isDamageEvidence with hevid
    have hnn : 0 ≤ (evid.map (fun L => L.Confidence.getD 0)).sum := by
      apply List.sum_nonneg
      intro x hx
      simp only [List.mem_map] at hx
      obtain ⟨L, hL, rfl⟩ := hx
      have := List.of_mem_filter hL
      rw [isDamageEvidence, Bool.and_eq_true, decide_eq_true_eq] at this
      linarith [this.1]
    rw [foldl_add_eq_sum (fun l => l.Confidence.getD 0) evid 0, zero_add] at hs
    by_cases he : evid.isEmpty
    · rw [List.isEmpty_iff] at he
      subst hs
      simp [he, jsRound_zero]
    · rw [List.isEmpty_iff] at he
      have hlen : evid.length ≠ 0 := fun hl => he (List.eq_nil_of_length_eq_zero hl)
      rw [if_neg hlen] at hs
      subst hs
      rw [if_neg (by simpa [List.isEmpty_iff] using he)]
      have hr : 0 ≤ jsRound ((evid.map (fun L => L.Confidence.getD 0)).sum /
          evid.length / 25) := by
        apply jsRound_nonneg
        positivity
      rw [max_eq_right (le_min (by norm_num) hr)]

/-- C4: classification discards an image exactly when no confidence-passing
label indicates an area and none is damage evidence. -/
theorem C4_discard_iff (labels : List Label) :
    classifyDamage labels = .discard ↔
      (∀ L ∈ labels, labelArea L = none) ∧
      (∀ L ∈ labels, isDamageEvidence L = false) := by
  rw [classifyDamage]
  split
  · rename_i hcond
    obtain ⟨harea, hdl⟩ := hcond
    rw [classifyFold_area, lastArea_eq_none_iff] at harea
    rw [classifyFold_damageLabels, List.filter_eq_nil_iff] at hdl
    constructor
    · intro _
      exact ⟨harea, fun L hL => by simpa using hdl L hL⟩
    · intro _
      rfl
  · rename_i hcond
    constructor
    · intro h
      exact absurd h (by simp)
    · rintro ⟨harea, hdl⟩
      exfalso
      apply hcond
      constructor
      · rw [classifyFold_area, lastArea_eq_none_iff]
        exact harea
      · rw [classifyFold_damageLabels, List.filter_eq_nil_iff]
        intro L hL
        simp [hdl L hL]

theorem groupByHash_cluster_sound (imgs : List ImageAnalysisResult) :
    ∀ g ∈ groupByHash imgs, ∃ s t, g = s :: t ∧
      ∀ y ∈ t, hammingDistance s.hash y.hash ≤ 3 := by
  induction imgs using groupByHash.induct with
  | case1 => simp [groupByHash]
  | case2 x rest ih =>
    intro g hg
    rw [groupByHash] at hg
    rcases List.mem_cons.mp hg with rfl | hg'
    · refine ⟨x, _, rfl, fun y hy => ?_⟩
      have := (List.mem_filter.mp hy).2
      simpa using this
    · exact ih g hg'

/-- C5 counterexample: with fingerprints `A=0000`, `B=0011`, `C=0110`, the
code puts all three records into one cluster, because `C` is at Hamming
distance 2 — not 4 — from the seed `A`; the claimed two-cluster outcome
`[{A,B},{C}]` does not occur. -/
theorem C5_counterexample :
    groupByHash [recA, recB, recC] = [[recA, recB, recC]] ∧
    groupByHash [recA, recB, recC] ≠ [[recA, recB], [recC]] ∧
    hammingDistance recA.hash recC.hash = 2 := by
  have h : groupByHash [recA, recB, recC] = [[recA, recB, recC]] := by
    simp +decide [groupByHash, hammingDistance, recA, recB, recC, recOf]
  refine ⟨h, by rw [h]; decide, by decide⟩

/-- C5 (amended): clustering is single-pass greedy and not transitive: every
cluster consists of a seed together with records at Hamming distance at most
3 from that seed (so a record joins the earliest unvisited seed's cluster
only when within distance 3 of the seed itself); for the input fingerprints
`A=0000`, `B=0011`, `C=1111` in that order, clustering produces exactly two
clusters `{A,B}` and `{C}`, even though `C` is within distance 3 of `B`. -/
theorem C5_greedy_clustering (imgs : List ImageAnalysisResult)
    (g : List ImageAnalysisResult) (h : g ∈ groupByHash imgs) :
    (∃ s t, g = s :: t ∧ ∀ y ∈ t, hammingDistance s.hash y.hash ≤ 3) ∧
    groupByHash [recA, recB, recC'] = [[recA, recB], [recC']] ∧
    hammingDistance recB.hash recC'.hash ≤ 3 ∧
    ¬ hammingDistance recA.hash recC'.hash ≤ 3 := by
  refine ⟨groupByHash_cluster_sound imgs g h, ?_, by decide, by decide⟩
  simp +decide [groupByHash, hammingDistance, recA, recB, recC', recOf]

/-- Witness for C5: instantiated at the one-record list, whose only cluster
is its seed alone. -/
theorem C5_greedy_clustering_witness :
    (∃ s t, [recA] = s :: t ∧ ∀ y ∈ t, hammingDistance s.hash y.hash ≤ 3) ∧
    groupByHash [recA, recB, recC'] = [[recA, recB], [recC']] ∧
    hammingDistance recB.hash recC'.hash ≤ 3 ∧
    ¬ hammingDistance recA.hash recC'.hash ≤ 3 :=
  C5_greedy_clustering [recA] [recA] (by simp [groupByHash])

theorem qle_trans : ∀ (a b c : ImageAnalysisResult),
    qle a b → qle b c → qle a c := by
  intro a b c hab hbc
  simp only [qle, decide_eq_true_eq] at *
  exact le_trans hbc hab

theorem qle_total : ∀ (a b : ImageAnalysisResult), qle a b || qle b a := by
  intro a b
  simp only [qle, Bool.or_eq_true, decide_eq_true_eq]
  exact le_total b.quality a.quality

theorem bestImage_eq_firstMax (g : List ImageAnalysisResult) :
    bestImage g = firstMax g := by
  induction g with
  | nil => simp [bestImage, firstMax]
  | cons a l ih =>
    obtain ⟨l₁, l₂, he, hl, hmem⟩ := List.mergeSort_cons qle_trans qle_total a l
    rw [bestImage, he]
    cases l₁ with
    | nil =>
      simp only [List.nil_append, List.head?_cons]
      rw [firstMax, ← ih, bestImage, hl, List.nil_append]
      cases l₂ with
      | nil => rfl
      | cons y t =>
        have hsorted := List.sorted_mergeSort qle_trans qle_total (a :: l)
        rw [he, List.nil_append] at hsorted
        have hay : qle a y = true :=
          (List.pairwise_cons.mp hsorted).1 y (List.mem_cons_self y t)
        rw [qle, decide_eq_true_eq] at hay
        simp only [List.head?_cons]
        rw [if_neg (not_lt.mpr hay)]
    | cons b l₁' =>
      simp only [List.cons_append, List.head?_cons]
      have hfb : firstMax l = some b := by
        rw [← ih, bestImage, hl]
        rfl
      have hgt : a.quality < b.quality := by
        have hb := hmem b (List.mem_cons_self b l₁')
        simp only [qle, Bool.not_eq_true', decide_eq_false_iff_not, not_le] at hb
        exact hb
      rw [firstMax, hfb]
      simp [hgt]

theorem firstMax_decomp (g : List ImageAnalysisResult) (h : g ≠ []) :
    ∃ pre r post, g = pre ++ r :: post ∧ firstMax g = some r ∧
      (∀ x ∈ g, x.quality ≤ r.quality) ∧ ∀ x ∈ pre, x.quality < r.quality := by
  induction g with
  | nil => exact absurd rfl h
  | cons a l ih =>
    cases l with
    | nil => exact ⟨[], a, [], rfl, rfl, by simp, by simp⟩
    | cons b t =>
      obtain ⟨pre, r, post, hdec, hfm, hmax, hpre⟩ := ih (by simp)
      by_cases hq : a.quality < r.quality
      · refine ⟨a :: pre, r, post, by rw [List.cons_append, hdec], ?_, ?_, ?_⟩
        · rw [firstMax, hfm]
          simp [hq]
        · intro x hx
          rcases List.mem_cons.mp hx with rfl | hx'
          · exact le_of_lt hq
          · exact hmax x hx'
        · intro x hx
          rcases List.mem_cons.mp hx with rfl | hx'
          · exact hq
          · exact hpre x hx'
      · refine ⟨[], a, b :: t, rfl, ?_, ?_, by simp⟩
        · rw [firstMax, hfm]
          simp [hq]
        · intro x hx
          rcases List.mem_cons.mp hx with rfl | hx'
          · exact le_refl _
          · exact le_trans (hmax x hx') (not_lt.mp hq)

/-- C6: for every non-empty cluster the selected representative is a member
of maximal quality, and among equally maximal members it is the earliest in
the cluster's original order (everything before it has strictly smaller
quality). -/
theorem C6_representative (g : List ImageAnalysisResult) (h : g ≠ []) :
    ∃ pre r post, g = pre ++ r :: post ∧ bestImage g = some r ∧
      (∀ x ∈ g, x.quality ≤ r.quality) ∧ ∀ x ∈ pre, x.quality < r.quality := by
  obtain ⟨pre, r, post, h1, h2, h3, h4⟩ := firstMax_decomp g h
  exact ⟨pre, r, post, h1, by rw [bestImage_eq_firstMax]; exact h2, h3, h4⟩

/-- Witness for C6: instantiated at a two-member cluster whose members tie on
quality. -/
theorem C6_representative_witness :
    ∃ pre r post, [recA, recB] = pre ++ r :: post ∧
      bestImage [recA, recB] = some r ∧
      (∀ x ∈ [recA, recB], x.quality ≤ r.quality) ∧
      ∀ x ∈ pre, x.quality < r.quality :=
  C6_representative [recA, recB] (by simp)

theorem avg_severity_at_spec_example :
    (mkAreaResult "wind" "roof" [imgW1, imgW2]).avg_severity = 14/5 := by
  rw [mkAreaResult]
  simp only [imgW1, imgW2, List.foldl_cons, List.foldl_nil]
  norm_num
  rw [toFixed1, jsRound]
  norm_num

/-- C7 counterexample: for representatives `[{severity 2, quality 1},
{severity 4, quality 0.6}]` the weighted mean is `4.4 / 1.6 = 2.75`, so the
reported one-decimal value is `2.8`, not the claimed `2.5`. -/
theorem C7_counterexample :
    (mkAreaResult "wind" "roof" [imgW1, imgW2]).avg_severity = 14/5 ∧
    (mkAreaResult "wind" "roof" [imgW1, imgW2]).avg_severity ≠ 5/2 := by
  refine ⟨avg_severity_at_spec_example, ?_⟩
  rw [avg_severity_at_spec_example]
  norm_num

/-- C7 (amended): for every area, the reported `avg_severity` is the
quality-weighted mean `Σ severity·quality / Σ quality` over the area's
representatives, rounded to one decimal place; for the representatives
`[{severity 2, quality 1}, {severity 4, quality 0.6}]` it equals `2.8`
(the exact mean being `2.75`). -/
theorem C7_weighted_mean (loss_type area : String)
    (imgs : List ImageAnalysisResult) :
    (mkAreaResult loss_type area imgs).avg_severity =
      toFixed1 (specWeightedMean imgs) ∧
    (mkAreaResult "wind" "roof" [imgW1, imgW2]).avg_severity = 14/5 := by
  refine ⟨?_, avg_severity_at_spec_example⟩
  rw [mkAreaResult, specWeightedMean]
  simp only
  rw [foldl_add_eq_sum (fun i => (i.severity : ℚ) * i.quality) imgs 0,
      foldl_add_eq_sum (fun i => i.quality) imgs 0, zero_add, zero_add]

theorem two_le_filter_iff {α : Type} {p : α → Bool} (l : List α) :
    2 ≤ (l.filter p).length ↔
      ∃ pre x mid y post, l = pre ++ x :: mid ++ y :: post ∧ p x ∧ p y := by
  constructor
  · induction l with
    | nil => intro h; simp at h
    | cons a t ih =>
      intro h2
      rw [List.filter_cons] at h2
      by_cases hpa : p a
      · rw [if_pos hpa] at h2
        have h1 : 0 < (t.filter p).length := by
          simp only [List.length_cons] at h2
          omega
        have hne : t.filter p ≠ [] := by
          intro hnil
          rw [hnil] at h1
          simp at h1
        obtain ⟨y, hy⟩ := List.exists_mem_of_ne_nil _ hne
        have hyt := List.mem_filter.mp hy
        obtain ⟨mid, post, rfl⟩ := List.append_of_mem hyt.1
        exact ⟨[], a, mid, y, post, rfl, hpa, hyt.2⟩
      · rw [if_neg hpa] at h2
        obtain ⟨pre, x, mid, y, post, rfl, hx, hy⟩ := ih h2
        exact ⟨a :: pre, x, mid, y, post, rfl, hx, hy⟩
  · rintro ⟨pre, x, mid, y, post, rfl, hx, hy⟩
    simp [List.filter_append, List.filter_cons, hx, hy]
    omega

/-- C8: `damage_confirmed` holds exactly when the area's representative list
contains two distinct occurrences of members with severity at least 2 (so it
is false with zero or one such member). -/
theorem C8_damage_confirmed (loss_type area : String)
    (imgs : List ImageAnalysisResult) :
    (mkAreaResult loss_type area imgs).damage_confirmed = true ↔
      ∃ pre x mid y post, imgs = pre ++ x :: mid ++ y :: post ∧
        2 ≤ x.severity ∧ 2 ≤ y.severity := by
  rw [mkAreaResult]
  simp only [decide_eq_true_eq]
  rw [two_le_filter_iff]
  constructor <;> rintro ⟨pre, x, mid, y, post, h, hx, hy⟩ <;>
    exact ⟨pre, x, mid, y, post, h, by simpa using hx, by simpa using hy⟩

/-- Witness for C3: instantiated at a single confidence-90 hail-damage
label, which the classifier keeps with severity 4. -/
theorem C3_severity_formula_witness : (4 : ℤ) = specSeverity hailLabels :=
  C3_severity_formula hailLabels "unknown" 4 1 (by
    have h : jsRound (90 / 25) = 4 := by apply jsRound_eq <;> norm_num
    simp +decide [hailLabels, classifyDamage, classifyFold, initClassifyState,
      classifyStep, damageKeywords, jsToLower, hasSubstr, h, jsRound_eq])

/-- C9: a per-image failure (fetch retries exhausted, classification call
error, discard by rule, or hash rejection — any outcome whose per-image
pipeline yields nothing) only adds one to `discarded`; the handler still
returns statusCode 200 and the counts, clusters, areas and overall severity
it reports over the remaining images are unchanged. -/
theorem C9_per_image_isolation (claim_id loss_type : String)
    (pre post : List ImageOutcome) (o : ImageOutcome)
    (h : processImage o = none) :
    (handler claim_id loss_type (pre ++ o :: post)).statusCode = 200 ∧
    (handler claim_id loss_type (pre ++ o :: post)).source_images.discarded =
      (handler claim_id loss_type (pre ++ post)).source_images.discarded + 1 ∧
    (handler claim_id loss_type (pre ++ o :: post)).source_images.analyzed =
      (handler claim_id loss_type (pre ++ post)).source_images.analyzed ∧
    (handler claim_id loss_type (pre ++ o :: post)).source_images.clusters =
      (handler claim_id loss_type (pre ++ post)).source_images.clusters ∧
    (handler claim_id loss_type (pre ++ o :: post)).areas =
      (handler claim_id loss_type (pre ++ post)).areas ∧
    (handler claim_id loss_type (pre ++ o :: post)).overall_damage_severity =
      (handler claim_id loss_type (pre ++ post)).overall_damage_severity := by
  have hfm : (pre ++ o :: post).filterMap processImage =
      (pre ++ post).filterMap processImage := by
    simp [List.filterMap_append, List.filterMap_cons, h]
  have hcp : (pre ++ o :: post).countP (fun o => (processImage o).isNone) =
      (pre ++ post).countP (fun o => (processImage o).isNone) + 1 := by
    simp [List.countP_append, List.countP_cons, h]
    omega
  refine ⟨rfl, ?_, ?_, ?_, ?_, ?_⟩ <;> simp only [handler, hfm, hcp]

/-- Witness for C9: a fetch-failing image ahead of one good image. -/
theorem C9_per_image_isolation_witness :
    (handler "c" "wind" ([] ++ badOut :: [goodOut])).statusCode = 200 ∧
    (handler "c" "wind" ([] ++ badOut :: [goodOut])).source_images.discarded =
      (handler "c" "wind" ([] ++ [goodOut])).source_images.discarded + 1 ∧
    (handler "c" "wind" ([] ++ badOut :: [goodOut])).source_images.analyzed =
      (handler "c" "wind" ([] ++ [goodOut])).source_images.analyzed ∧
    (handler "c" "wind" ([] ++ badOut :: [goodOut])).source_images.clusters =
      (handler "c" "wind" ([] ++ [goodOut])).source_images.clusters ∧
    (handler "c" "wind" ([] ++ badOut :: [goodOut])).areas =
      (handler "c" "wind" ([] ++ [goodOut])).areas ∧
    (handler "c" "wind" ([] ++ badOut :: [goodOut])).overall_damage_severity =
      (handler "c" "wind" ([] ++ [goodOut])).overall_damage_severity :=
  C9_per_image_isolation "c" "wind" [] [goodOut] badOut rfl

/-- C10 (implicit): when the labels collect damage evidence but indicate no
area, the image is kept with the area string `unknown`, and that value flows
through clustering and aggregation to appear as an area entry named
`unknown` in the response. -/
theorem C10_unknown_area (cid lt url hsh : String) (labels : List Label)
    (hA : ∀ L ∈ labels, labelArea L = none)
    (hD : ∃ L ∈ labels, isDamageEvidence L = true) :
    (∃ sev q, classifyDamage labels = .keep "unknown" sev q) ∧
    (handler cid lt [⟨url, true, some labels, some hsh⟩]).areas.map
        (fun a => a.area) = ["unknown"] := by
  have harea : (classifyFold labels).area = none := by
    rw [classifyFold_area, lastArea_eq_none_iff]
    exact hA
  have hdl : (classifyFold labels).damageLabels ≠ [] := by
    rw [classifyFold_damageLabels]
    obtain ⟨L, hL, hLe⟩ := hD
    intro hnil
    rw [List.filter_eq_nil_iff] at hnil
    exact (hnil L hL) (by simp [hLe])
  have hkeep : ∃ sev q, classifyDamage labels = .keep "unknown" sev q := by
    rcases hc : classifyDamage labels with _ | ⟨a, sev, q⟩
    · exfalso
      rw [classifyDamage] at hc
      split at hc
      · rename_i hcond
        exact hdl hcond.2
      · exact absurd hc (by simp)
    · refine ⟨sev, q, ?_⟩
      rw [classifyDamage] at hc
      split at hc
      · exact absurd hc (by simp)
      · rw [ClassifyOutcome.keep.injEq] at hc
        obtain ⟨ha, -, -⟩ := hc
        rw [← ha, harea]
        rfl
  obtain ⟨sev, q, hk⟩ := hkeep
  have hpi : processImage ⟨url, true, some labels, some hsh⟩ =
      some ⟨url, "unknown", sev, q, hsh⟩ := by
    simp [processImage, hk]
  refine ⟨⟨sev, q, hk⟩, ?_⟩
  simp [handler, hpi, groupByHash, bestImage, areaKeys, mkAreaResult]

/-- Witness for C10: a single confidence-90 hail-damage label, no area
indicator. -/
theorem C10_unknown_area_witness :
    (∃ sev q, classifyDamage hailLabels = .keep "unknown" sev q) ∧
    (handler "CLM" "wind" [⟨"u", true, some hailLabels, some "beef"⟩]).areas.map
        (fun a => a.area) = ["unknown"] :=
  C10_unknown_area "CLM" "wind" "u" "beef" hailLabels (by decide) (by decide)
